import Mathlib

/-!
Verification of the teams-mcp HTTP transport / session / credential layer.

The development shallowly embeds the parts of the repository that the
specification talks about:

* `TeamsMcp.Graph` — the `GraphService` class of `src/services/graph.ts`
  (credential resolution, the per-token client pool, the process-wide
  cached credential and its expiry check).
* `TeamsMcp.Tcache` — the `TransportCache` class and the HTTP request
  routing of `src/transports/HttpTransportHandler.ts`.
* `TeamsMcp.Dispatch` — the per-request timeout / response-write protocol
  of the HTTP dispatcher.
* `TeamsMcp.IndexTs` — the `validateToken` / `getAuthInfo` variant of the
  `GraphService` found in `src/index.ts` (environment-token validation).

JavaScript objects are embedded as Lean structures; object identity
(reference equality) is embedded as a natural-number id handed out by a
monotone counter, mirroring the fact that each `new` / `initWithMiddleware`
call allocates a distinct object.  Fallible code returns `Except` or
`Option`; wall-clock time is an explicit `Nat` argument.
-/

namespace TeamsMcp

/-! ### Association lists

JavaScript `Map` objects (`clientPoolPerToken`) and the internal map of the
LRU cache are embedded as association lists over `String` keys.  `assocFind`
embeds `Map.get` / `Map.has`; `assocErase` removes every binding of a key.
-/

/-- Decidable equality for `Except`, used to evaluate the embedded
operations on concrete inputs. -/
instance {ε α : Type} [DecidableEq ε] [DecidableEq α] :
    DecidableEq (Except ε α) := fun a b =>
  match a, b with
  | .ok x, .ok y =>
    if h : x = y then isTrue (congrArg Except.ok h)
    else isFalse (fun hh => h (Except.ok.inj hh))
  | .error x, .error y =>
    if h : x = y then isTrue (congrArg Except.error h)
    else isFalse (fun hh => h (Except.error.inj hh))
  | .ok _, .error _ => isFalse (fun hh => Except.noConfusion hh)
  | .error _, .ok _ => isFalse (fun hh => Except.noConfusion hh)

/-- Split a character list at the characters satisfying `p` (the separators
are dropped; empty fields are kept, as in the JavaScript `split`). -/
def splitByAux (p : Char → Bool) : List Char → List Char → List (List Char)
  | [], acc => [acc.reverse]
  | x :: t, acc =>
    if p x then acc.reverse :: splitByAux p t []
    else splitByAux p t (x :: acc)

/-- `String.split` by a character predicate, computed structurally on the
underlying character list. -/
def splitBy (p : Char → Bool) (s : String) : List String :=
  (splitByAux p s.data []).map (fun l => ⟨l⟩)

/-- The JavaScript `s.split(sep)` for a one-character separator: split at
every occurrence, keeping empty fields (`"a  b".split(" ")` is
`["a", "", "b"]`, `"".split(".")` is `[""]`). -/
def splitChar (sep : Char) (s : String) : List String :=
  splitBy (fun c => c = sep) s

/-- Lookup of a key in an association list (embeds `Map.get`). -/
def assocFind {β : Type} : List (String × β) → String → Option β
  | [], _ => none
  | e :: t, k => if e.1 = k then some e.2 else assocFind t k

/-- Remove every binding of a key (used to embed `Map.set` overwriting). -/
def assocErase {β : Type} : List (String × β) → String → List (String × β)
  | [], _ => []
  | e :: t, k => if e.1 = k then assocErase t k else e :: assocErase t k

/-- `Map.set`: bind `k` to `v`, replacing any previous binding. -/
def assocSet {β : Type} (l : List (String × β)) (k : String) (v : β) :
    List (String × β) :=
  (k, v) :: assocErase l k

/-- The keys of an association list. -/
def assocKeys {β : Type} (l : List (String × β)) : List String :=
  l.map Prod.fst

namespace Graph

/-- The shape of the persisted auth file `~/.msgraph-mcp-auth.json`
(`StoredAuthInfo` in `src/services/graph.ts`).  The `expiresAt` ISO date
string is embedded as the instant it denotes (`Option Nat`); an absent
field is `none`. -/
structure StoredAuthInfo where
  clientId : String := ""
  authenticated : Bool := false
  timestamp : String := ""
  expiresAt : Option Nat := none
  token : String := ""
deriving Repr, DecidableEq

/-- Result of `client.api("/me").get()` when it succeeds. -/
structure Me where
  userPrincipalName : Option String := none
  displayName : Option String := none
deriving Repr, DecidableEq

/-- The `AuthStatus` interface of `src/services/graph.ts`. -/
structure AuthStatus where
  isAuthenticated : Bool
  userPrincipalName : Option String := none
  displayName : Option String := none
  expiresAt : Option Nat := none
deriving Repr, DecidableEq

/-- The mutable state of the `GraphService` singleton together with the
module-level `clientPoolPerToken` map.  Graph `Client` objects are
identified by the `Nat` handed out at their construction; `nextId` is the
allocation counter embedding `Client.initWithMiddleware` returning a fresh
object on every call. -/
structure GraphState where
  pool : List (String × Nat) := []
  client : Option Nat := none
  isInitialized : Bool := false
  authInfo : Option StoredAuthInfo := none
  nextId : Nat := 0
deriving Repr, DecidableEq

/-- Allocation of a fresh Graph client object
(`Client.initWithMiddleware(...)`). -/
def newClient (s : GraphState) : Nat × GraphState :=
  (s.nextId, { s with nextId := s.nextId + 1 })

/-- `requestInfo?.headers?.authorization?.split(" ")[1]` followed by the
`if (token)` truthiness test: the value after the first space character of
the `Authorization` header, or `none` when the header is absent, has no
second space-delimited field, or that field is the empty string. -/
def extractToken (authorization : Option String) : Option String :=
  match authorization with
  | none => none
  | some h =>
    match (splitChar ' ' h)[1]? with
    | none => none
    | some t => if t = "" then none else some t

/-- `this.authInfo.expiresAt` is present and `new Date(expiresAt) <= new
Date()`. -/
def tokenExpired (info : StoredAuthInfo) (now : Nat) : Bool :=
  match info.expiresAt with
  | some e => e ≤ now
  | none => false

/-- `GraphService.initializeClient`.  `fileRead` is the outcome of reading
and JSON-parsing the persisted auth file (`none` when the read or the parse
throws, in which case the `catch` only logs).  A usable, unexpired stored
token constructs the process-wide client and marks the service
initialized; every failure path leaves `client` unset. -/
def initializeClient (fileRead : Option StoredAuthInfo) (now : Nat)
    (s : GraphState) : GraphState :=
  if s.isInitialized then s
  else
    match fileRead with
    | none => s
    | some info =>
      let s1 : GraphState := { s with authInfo := some info }
      if info.authenticated && info.token != "" then
        if tokenExpired info now then s1
        else
          let (c, s2) := newClient s1
          { s2 with client := some c, isInitialized := true }
      else s1

/-- The literal message of the `Error` thrown by `GraphService.getClient`
when no credential is usable. -/
def notAuthenticatedMsg : String :=
  "Not authenticated. Please run the authentication CLI tool first: npx @floriscornel/teams-mcp@latest authenticate"

/-- `GraphService.getClient(requestInfo)`: a request-carried bearer token is
looked up in (or freshly inserted into) `clientPoolPerToken`; otherwise the
process-wide client is initialized from the persisted file and returned,
and its absence throws the remediation error. -/
def getClient (authorization : Option String) (fileRead : Option StoredAuthInfo)
    (now : Nat) (s : GraphState) : Except String Nat × GraphState :=
  match extractToken authorization with
  | some token =>
    match assocFind s.pool token with
    | some c => (.ok c, s)
    | none =>
      let (c, s1) := newClient s
      (.ok c, { s1 with pool := assocSet s1.pool token c })
  | none =>
    let s1 := initializeClient fileRead now s
    match s1.client with
    | some c => (.ok c, s1)
    | none => (.error notAuthenticatedMsg, s1)

/-- The non-null assertion `clientPoolPerToken.get(token)!`: raises when the
key is absent (it is only ever evaluated behind a `has` check). -/
def poolGetBang (pool : List (String × Nat)) (k : String) : Except String Nat :=
  match assocFind pool k with
  | some c => .ok c
  | none => .error "non-null assertion failed"

/-- The `try { await client.api("/me").get() } catch` block of
`getAuthStatus`: a successful call yields the authenticated status, any
rejection is caught and yields `isAuthenticated: false`.  `meResult` maps a
client id to the outcome of its `/me` call. -/
def meToStatus (meResult : Nat → Except Unit Me) (client : Nat)
    (authInfo : Option StoredAuthInfo) : AuthStatus :=
  match meResult client with
  | .ok me =>
    { isAuthenticated := true, userPrincipalName := me.userPrincipalName,
      displayName := me.displayName, expiresAt := authInfo.bind (·.expiresAt) }
  | .error _ => { isAuthenticated := false }

/-- `GraphService.getAuthStatus(requestInfo)` of `src/services/graph.ts`.
The result is `Except`-valued so that a hypothetical uncaught throw would
be visible as `.error`; the only modelled throw point is the non-null
assertion `poolGetBang`. -/
def getAuthStatus (authorization : Option String)
    (fileRead : Option StoredAuthInfo) (now : Nat)
    (meResult : Nat → Except Unit Me) (s : GraphState) :
    Except String AuthStatus × GraphState :=
  match extractToken authorization with
  | some token =>
    if (assocFind s.pool token).isSome then
      match poolGetBang s.pool token with
      | .error e => (.error e, s)
      | .ok client =>
        let s1 := { s with pool := assocSet s.pool token client }
        (.ok (meToStatus meResult client s1.authInfo), s1)
    else
      let (client, s1) := newClient s
      let s2 := { s1 with pool := assocSet s1.pool token client }
      (.ok (meToStatus meResult client s2.authInfo), s2)
  | none =>
    let s1 := initializeClient fileRead now s
    match s1.client with
    | none => (.ok { isAuthenticated := false }, s1)
    | some client => (.ok (meToStatus meResult client s1.authInfo), s1)

/-- All pooled client ids were allocated below the current counter — the
reachable-state invariant under which pooled clients are pairwise distinct
from any client allocated later. -/
def PoolInv (s : GraphState) : Prop :=
  ∀ k c, assocFind s.pool k = some c → c < s.nextId

/-- The second whitespace-delimited segment of a string: split on runs of
spaces and tabs and drop empty fields.  This is the reading of
"whitespace-delimited segment" used by the specification, as opposed to the
single-space `split(" ")` the source performs. -/
def wsSegments (s : String) : List String :=
  (splitBy (fun c => c = ' ' ∨ c = '\t') s).filter (fun t => t ≠ "")

end Graph

namespace Tcache

/-- An entry of the LRU cache: the stored value and the instant it was
inserted (its `ttl` clock starts at insertion and, because the source sets
`updateAgeOnGet: false`, is never refreshed). -/
structure LruEntry (V : Type) where
  value : V
  start : Nat
deriving Repr, DecidableEq

/-- Modelled from the spec: the `lru-cache` npm package is an external
dependency whose code is not part of this repository.  Its behaviour is
taken from §4.3 of the specification: a bounded map whose entries are
ordered most-recently-used first, evicting the least-recently-used entry on
capacity overflow and expiring an entry `ttl` after its creation. -/
structure Lru (V : Type) where
  maxSize : Nat
  ttl : Nat
  entries : List (String × LruEntry V)
deriving Repr, DecidableEq

/-- Modelled from the spec (§4.3 capacity bound / eviction path): `set`
binds the key at the most-recently-used position; when the size then
exceeds `maxSize` the entries beyond capacity — the least-recently-used
ones — are evicted and returned for disposal. -/
def Lru.set {V : Type} (c : Lru V) (k : String) (v : V) (now : Nat) :
    Lru V × List (String × V) :=
  let entries := (k, ⟨v, now⟩) :: assocErase c.entries k
  if c.maxSize < entries.length then
    ({ c with entries := entries.take c.maxSize },
     (entries.drop c.maxSize).map (fun e => (e.1, e.2.value)))
  else
    ({ c with entries := entries }, [])

/-- Modelled from the spec (§4.3 time bound): a read of a key whose entry
is `ttl` or older counts it as absent and evicts it through the same
disposal path as capacity overflow; a hit moves the entry to the
most-recently-used position but — `updateAgeOnGet: false` — keeps its
original `start`. -/
def Lru.get {V : Type} (c : Lru V) (k : String) (now : Nat) :
    Option V × Lru V × List (String × V) :=
  match assocFind c.entries k with
  | none => (none, c, [])
  | some e =>
    if e.start + c.ttl ≤ now then
      (none, { c with entries := assocErase c.entries k }, [(k, e.value)])
    else
      (some e.value,
       { c with entries := (k, e) :: assocErase c.entries k }, [])

/-- Modelled from the spec (§4.3 teardown): `clear` removes every entry,
returning all of them for disposal. -/
def Lru.clear {V : Type} (c : Lru V) : Lru V × List (String × V) :=
  ({ c with entries := [] }, c.entries.map (fun e => (e.1, e.2.value)))

/-- A protocol server instance (`new McpServer(...)` plus the five
`register*Tools` calls), identified by its allocation id. -/
structure McpServer where
  serverId : Nat
  name : String
  version : String
  tools : List String
deriving Repr, DecidableEq

/-- `registerAuthTools` / `registerUsersTools` / ... : attach a named tool
set to a server instance. -/
def registerToolSet (server : McpServer) (t : String) : McpServer :=
  { server with tools := server.tools ++ [t] }

/-- The five tool sets `TransportCache.getTransport` registers, in source
order. -/
def allToolSets : List String :=
  ["auth", "users", "teams", "chats", "search"]

/-- The `CachedTransport` interface of `HttpTransportHandler.ts`.  The
transport object is identified by its allocation id. -/
structure CachedTransport where
  transport : Nat
  id : String
  createdAt : Nat
deriving Repr, DecidableEq

/-- The state of a `TransportCache` plus the allocation counters for
transports and servers and the index into the `randomUUID` stream.
`disposedClosed` records, in order, the transports on which the dispose
callback (and hence `transport.close()`) has been invoked. -/
structure TCState where
  cache : Lru Nat := { maxSize := 100, ttl := 30000, entries := [] }
  nextTransport : Nat := 0
  nextServer : Nat := 0
  uuidIdx : Nat := 0
  disposedClosed : List Nat := []
deriving Repr, DecidableEq

/-- The `TransportCache` constructor: an `LRUCache` with `max: 100`,
`ttl: 30000` (milliseconds) and `updateAgeOnGet: false`. -/
def TransportCache.init : TCState := {}

/-- `TransportCache.getTransport()`: builds a brand-new transport, a
brand-new server with all five tool sets registered, connects them, and
stores the pair in the cache under a freshly generated `randomUUID` —
the method takes no session identifier at all.  `uuid` is the stream of
`randomUUID()` results.  Returns the `CachedTransport`, the server that
was connected to it, and the new state. -/
def TransportCache.getTransport (uuid : Nat → String) (now : Nat)
    (s : TCState) : CachedTransport × McpServer × TCState :=
  let transport := s.nextTransport
  let server0 : McpServer :=
    { serverId := s.nextServer, name := "Microsoft Teams MCP Server",
      version := "0.3.3", tools := [] }
  let server := allToolSets.foldl registerToolSet server0
  let cached : CachedTransport :=
    { transport := transport, id := uuid s.uuidIdx, createdAt := now }
  let (cache1, evicted) := s.cache.set cached.id transport now
  (cached, server,
   { cache := cache1, nextTransport := s.nextTransport + 1,
     nextServer := s.nextServer + 1, uuidIdx := s.uuidIdx + 1,
     disposedClosed := s.disposedClosed ++ evicted.map Prod.snd })

/-- The log line `Disposing transport <id> from cache`. -/
def logDisposing (id : String) : String :=
  "Disposing transport " ++ id ++ " from cache"

/-- The log line `Error closing transport <id>:`. -/
def logCloseError (id : String) : String :=
  "Error closing transport " ++ id ++ ":"

/-- The `dispose` callback of the `TransportCache` constructor: log, then
`await value.transport.close()` inside `try/catch` — a close failure is
logged and swallowed.  `close` gives the outcome of closing a transport;
the handler returns the log lines it emits and, having no error channel,
can never re-throw. -/
def disposeHandler (close : Nat → Except String Unit) (id : String)
    (t : Nat) : List String :=
  match close t with
  | .ok _ => [logDisposing id]
  | .error _ => [logDisposing id, logCloseError id]

/-- Run the dispose callback on every evicted entry, in order. -/
def disposeAll (close : Nat → Except String Unit)
    (evicted : List (String × Nat)) : List String :=
  (evicted.map (fun e => disposeHandler close e.1 e.2)).flatten

/-- `TransportCache.destroy()`: `cache.clear()`, which triggers the dispose
callback for every cached transport. -/
def TransportCache.destroy (close : Nat → Except String Unit) (s : TCState) :
    TCState × List String :=
  let (cache1, evicted) := s.cache.clear
  ({ s with cache := cache1,
            disposedClosed := s.disposedClosed ++ evicted.map Prod.snd },
   disposeAll close evicted)

/-- An inbound HTTP request as seen by the dispatcher closure in
`HttpTransportHandler.connect`. -/
structure HttpRequest where
  method : String
  url : String
  mcpSessionId : Option String
deriving Repr, DecidableEq

/-- What the dispatcher routing produces: either the static health payload
(status code and JSON body as key/value pairs) or an MCP dispatch through a
cached transport under a session id. -/
inductive HttpOutcome where
  | health (status : Nat) (body : List (String × String))
  | mcp (sessionId : String) (cached : CachedTransport)
deriving Repr, DecidableEq

/-- The cached transport a routing outcome used, if any. -/
def HttpOutcome.cachedUsed : HttpOutcome → Option CachedTransport
  | .health _ _ => none
  | .mcp _ c => c

/-- The literal health payload written for `GET /health`. -/
def healthBody (nowIso : String) : List (String × String) :=
  [("status", "healthy"), ("server", "microsoft-teams-mcp"),
   ("version", "0.3.3"), ("timestamp", nowIso)]

/-- The routing part of the request handler in
`HttpTransportHandler.connect`: `GET /health` short-circuits to the static
payload; every other request derives a session id (the `mcp-session-id`
header, else a fresh `randomUUID`) and acquires a transport from the cache.
The final component counts the `getTransport` invocations the request
caused. -/
def handleHttpRequest (uuid : Nat → String) (now : Nat) (nowIso : String)
    (req : HttpRequest) (s : TCState) : HttpOutcome × TCState × Nat :=
  if req.method = "GET" ∧ req.url = "/health" then
    (.health 200 (healthBody nowIso), s, 0)
  else
    let (sessionId, s0) :=
      match req.mcpSessionId with
      | some sid => (sid, s)
      | none => (uuid s.uuidIdx, { s with uuidIdx := s.uuidIdx + 1 })
    let (cached, _server, s1) := TransportCache.getTransport uuid now s0
    (.mcp sessionId cached, s1, 1)

/-- A concrete transport-cache state — capacity 3, three live entries in
recency order `a`, `b`, `c` — used to evaluate the eviction behaviour on
explicit inputs. -/
def sampleFullState : TCState where
  cache :=
    { maxSize := 3, ttl := 30000,
      entries := [("a", ⟨10, 0⟩), ("b", ⟨11, 0⟩), ("c", ⟨12, 0⟩)] }
  nextTransport := 20
  nextServer := 0
  uuidIdx := 0
  disposedClosed := []

/-- A concrete one-entry cache — default TTL, entry created at instant
100 — used to evaluate TTL expiry on explicit inputs. -/
def sampleTtlCache : Lru Nat where
  maxSize := 100
  ttl := 30000
  entries := [("k", ⟨7, 100⟩)]

end Tcache

namespace Dispatch

/-- A response written on the HTTP response object: its HTTP status and the
JSON-RPC error code its body carries, if any. -/
structure RpcResponse where
  httpStatus : Nat
  rpcCode : Option Int
deriving Repr, DecidableEq

/-- The timeout response of `HttpTransportHandler.connect`: HTTP 408 with a
JSON-RPC error body whose code is `-32000`, a protocol-level code. -/
def timeoutResponse : RpcResponse := { httpStatus := 408, rpcCode := some (-32000) }

/-- The catch-path response: HTTP 500 with JSON-RPC code `-32603`. -/
def internalErrorResponse : RpcResponse := { httpStatus := 500, rpcCode := some (-32603) }

/-- A response produced by the transport handling the request normally. -/
def transportResponse : RpcResponse := { httpStatus := 200, rpcCode := none }

/-- The duration passed to `setTimeout` in the dispatcher, in
milliseconds. -/
def requestTimeoutMs : Nat := 25000

/-- The per-request state of the dispatcher closure: whether response
headers have been sent, whether the one-shot `setTimeout` timer is still
pending, and the responses written so far, in order. -/
structure ResState where
  headersSent : Bool
  timerActive : Bool
  written : List RpcResponse
deriving Repr, DecidableEq

/-- State at the start of a request: nothing sent, the 25-second timer
armed. -/
def initRes : ResState := { headersSent := false, timerActive := true, written := [] }

/-- The events that can reach one request: the timer firing, the transport
completing the response normally, the catch branch running after a dispatch
error, and the socket closing or erroring. -/
inductive Event where
  | timerFire
  | handlerSuccess
  | handlerError
  | reqClose
deriving Repr, DecidableEq

/-- One event against the dispatcher closure, following the source:

* `timerFire` — the `setTimeout` callback: runs only if the timer is still
  pending (one-shot); if headers are not yet sent it writes the 408 timeout
  body with code -32000 and ends the response.
* `handlerSuccess` — the transport ends the response; the wrapped `res.end`
  clears the timer.
* `handlerError` — the `catch` branch: clears the timer and writes the 500
  body with code -32603 only when headers are not yet sent.
* `reqClose` — the `close`/`error` listeners: clear the timer. -/
def step (s : ResState) (e : Event) : ResState :=
  match e with
  | .timerFire =>
    if s.timerActive then
      if s.headersSent then { s with timerActive := false }
      else
        { headersSent := true, timerActive := false,
          written := s.written ++ [timeoutResponse] }
    else s
  | .handlerSuccess =>
    if s.headersSent then { s with timerActive := false }
    else
      { headersSent := true, timerActive := false,
        written := s.written ++ [transportResponse] }
  | .handlerError =>
    if s.headersSent then { s with timerActive := false }
    else
      { headersSent := true, timerActive := false,
        written := s.written ++ [internalErrorResponse] }
  | .reqClose => { s with timerActive := false }

/-- Run a sequence of events against a request. -/
def run (s : ResState) : List Event → ResState
  | [] => s
  | e :: t => run (step s e) t

end Dispatch

namespace IndexTs

/-- The decoded middle segment of a JWT as far as `validateToken` looks at
it: the `aud` claim is a string, an array of strings, or absent (any other
JSON type behaves like absent for the `includes` test). -/
structure JwtPayload where
  aud : Option (String ⊕ List String)
deriving DecidableEq

/-- `Array.isArray(payload.aud) ? payload.aud : [payload.aud]` followed by
`audiences.includes("https://graph.microsoft.com")`. -/
def audIncludes (aud : Option (String ⊕ List String)) : Bool :=
  match aud with
  | none => false
  | some (.inl a) => a = "https://graph.microsoft.com"
  | some (.inr l) => l.contains "https://graph.microsoft.com"

/-- `GraphService.validateToken` of `src/index.ts`: reject unless the token
has exactly three dot-delimited segments and the middle segment decodes
(`atob` + `JSON.parse`, embedded as the `decode` parameter, `none` when
either throws) to a payload whose `aud` includes the Graph audience.  No
network call and no signature check occur: the function is pure in
`decode`. -/
def validateToken (decode : String → Option JwtPayload) (token : String) :
    Option String :=
  let tokenSplits := splitChar '.' token
  if tokenSplits.length ≠ 3 then none
  else
    match decode (tokenSplits[1]?.getD "") with
    | none => none
    | some payload => if audIncludes payload.aud then some token else none

/-- The `StoredAuthInfo` shape of `src/index.ts` (its `clientId` and
`expiresAt` are optional there). -/
structure AuthFileInfo where
  authenticated : Bool
  timestamp : String
  token : String
  clientId : Option String := none
  expiresAt : Option String := none
deriving Repr, DecidableEq

/-- `GraphService.getAuthInfo` of `src/index.ts`: a truthy (nonempty)
`AUTH_TOKEN` environment value is validated structurally and decides the
result by itself; otherwise the persisted auth file is read (`fileRead`,
`none` when reading or parsing throws) with an unauthenticated fallback. -/
def getAuthInfo (decode : String → Option JwtPayload)
    (envAuthToken : Option String) (fileRead : Option AuthFileInfo)
    (nowIso : String) : AuthFileInfo :=
  let fromFile : AuthFileInfo :=
    match fileRead with
    | some info => info
    | none => { authenticated := false, timestamp := nowIso, token := "" }
  match envAuthToken with
  | some authToken =>
    if authToken = "" then fromFile
    else
      match validateToken decode authToken with
      | some _ => { authenticated := true, timestamp := nowIso, token := authToken }
      | none => { authenticated := false, timestamp := nowIso, token := "" }
  | none => fromFile

end IndexTs

/-!
## Theorems

Helper lemmas about the association-list embedding of `Map`, then one
theorem per claim (with a witness where the theorem has hypotheses).
-/

theorem assocFind_cons_self {β : Type} (l : List (String × β)) (k : String)
    (v : β) : assocFind ((k, v) :: l) k = some v := by
  simp [assocFind]

theorem assocFind_cons_ne {β : Type} (l : List (String × β)) (k k2 : String)
    (v : β) (h : k ≠ k2) : assocFind ((k, v) :: l) k2 = assocFind l k2 := by
  simp [assocFind, h]

theorem assocFind_erase_self {β : Type} (l : List (String × β)) (k : String) :
    assocFind (assocErase l k) k = none := by
  induction l with
  | nil => rfl
  | cons e t ih =>
    by_cases h : e.1 = k <;> simp [assocErase, assocFind, h, ih]

theorem assocFind_erase_ne {β : Type} (l : List (String × β)) (k k2 : String)
    (h : k2 ≠ k) : assocFind (assocErase l k) k2 = assocFind l k2 := by
  induction l with
  | nil => rfl
  | cons e t ih =>
    by_cases he : e.1 = k
    · rw [assocErase, if_pos he, ih, assocFind, if_neg]
      rw [he]
      exact fun hh => h hh.symm
    · rw [assocErase, if_neg he]
      by_cases h2 : e.1 = k2
      · rw [assocFind, if_pos h2, assocFind, if_pos h2]
      · rw [assocFind, if_neg h2, assocFind, if_neg h2, ih]

theorem assocFind_set_self {β : Type} (l : List (String × β)) (k : String)
    (v : β) : assocFind (assocSet l k v) k = some v := by
  simp [assocSet, assocFind]

theorem assocFind_set_ne {β : Type} (l : List (String × β)) (k k2 : String)
    (v : β) (h : k2 ≠ k) : assocFind (assocSet l k v) k2 = assocFind l k2 := by
  rw [assocSet, assocFind_cons_ne _ _ _ _ (fun hh => h hh.symm),
    assocFind_erase_ne _ _ _ h]

theorem assocFind_of_not_mem_keys {β : Type} (l : List (String × β))
    (k : String) (h : k ∉ assocKeys l) : assocFind l k = none := by
  induction l with
  | nil => rfl
  | cons e t ih =>
    simp only [assocKeys, List.map_cons, List.mem_cons, not_or] at h
    rw [assocFind, if_neg (fun hh => h.1 hh.symm)]
    exact ih (by simpa [assocKeys] using h.2)

theorem assocErase_of_not_mem_keys {β : Type} (l : List (String × β))
    (k : String) (h : k ∉ assocKeys l) : assocErase l k = l := by
  induction l with
  | nil => rfl
  | cons e t ih =>
    simp only [assocKeys, List.map_cons, List.mem_cons, not_or] at h
    rw [assocErase, if_neg (fun hh => h.1 hh.symm),
      ih (by simpa [assocKeys] using h.2)]

namespace Graph

/-- If the process-wide credential is unusable — the auth file is unreadable
or the stored token has an expiry at or before `now` — then
`initializeClient` leaves the service without a client and allocates
nothing. -/
theorem initializeClient_unusable (s : GraphState)
    (hinit : s.isInitialized = false) (hcl : s.client = none)
    (fileRead : Option StoredAuthInfo) (now : Nat)
    (hbad : fileRead = none ∨
      ∃ info e, fileRead = some info ∧ info.expiresAt = some e ∧ e ≤ now) :
    (initializeClient fileRead now s).client = none ∧
    (initializeClient fileRead now s).nextId = s.nextId := by
  rcases hbad with hnone | ⟨info, e, hfile, hexp, hle⟩
  · subst hnone
    simp [initializeClient, hinit, hcl]
  · subst hfile
    rw [initializeClient, if_neg (by simp [hinit])]
    by_cases hu : info.authenticated && info.token != ""
    · have hexpb : tokenExpired info now = true := by
        simp [tokenExpired, hexp, hle]
      simp [hu, hexpb, hcl]
    · simp [hu, hcl]

/-- C2: a request carrying bearer token `A` never receives the client
created for a different token `B`, and per-token pooling holds: the first
call for `A` constructs a new client and stores it keyed by the raw token
value, every later call with `A` returns that identical instance (and
leaves the state untouched), and a later call with `B ≠ A` returns a
different instance.  `PoolInv` is the reachable-state invariant that every
pooled client id was allocated below the current counter. -/
theorem getClient_pool_per_token (s : GraphState) (hInv : PoolInv s)
    (authA authB : Option String) (A B : String)
    (hA : extractToken authA = some A) (hB : extractToken authB = some B)
    (hAB : A ≠ B) (hfirst : assocFind s.pool A = none)
    (fr1 fr2 fr3 : Option StoredAuthInfo) (n1 n2 n3 : Nat) :
    (getClient authA fr1 n1 s).1 = .ok s.nextId ∧
    assocFind (getClient authA fr1 n1 s).2.pool A = some s.nextId ∧
    getClient authA fr2 n2 (getClient authA fr1 n1 s).2 =
      (.ok s.nextId, (getClient authA fr1 n1 s).2) ∧
    (∀ cB, (getClient authB fr3 n3 (getClient authA fr1 n1 s).2).1 = .ok cB →
      cB ≠ s.nextId) ∧
    PoolInv (getClient authA fr1 n1 s).2 := by
  have hr1 : getClient authA fr1 n1 s =
      (.ok s.nextId,
       { s with nextId := s.nextId + 1,
                pool := assocSet s.pool A s.nextId }) := by
    simp [getClient, hA, hfirst, newClient]
  rw [hr1]
  refine ⟨rfl, assocFind_set_self _ _ _, ?_, ?_, ?_⟩
  · simp [getClient, hA, assocFind_set_self]
  · intro cB hcB
    rcases hfound : assocFind s.pool B with _ | c
    · have : cB = s.nextId + 1 := by
        have hBA : B ≠ A := fun h => hAB h.symm
        rw [getClient, hB] at hcB
        simp only [assocFind_set_ne _ _ _ _ hBA, hfound, newClient] at hcB
        exact (Except.ok.inj hcB).symm
      omega
    · have : cB = c := by
        have hBA : B ≠ A := fun h => hAB h.symm
        rw [getClient, hB] at hcB
        simp only [assocFind_set_ne _ _ _ _ hBA, hfound] at hcB
        exact (Except.ok.inj hcB).symm
      have := hInv B c hfound
      omega
  · intro k c hfind
    by_cases hk : k = A
    · subst hk
      rw [assocFind_set_self] at hfind
      simp only [Option.some.injEq] at hfind
      show c < s.nextId + 1
      omega
    · rw [assocFind_set_ne _ _ _ _ hk] at hfind
      have := hInv k c hfind
      show c < s.nextId + 1
      omega

/-- C2 witness: a concrete run with tokens `AAA` and `BBB` from the initial
state. -/
theorem getClient_pool_per_token_witness :
    (getClient (some "Bearer AAA") none 0 {}).1 = Except.ok 0 ∧
    (∀ cB, (getClient (some "Bearer BBB") none 0
        (getClient (some "Bearer AAA") none 0 {}).2).1 = Except.ok cB →
      cB ≠ 0) := by
  have h := getClient_pool_per_token {}
    (by intro k c hh; simp [assocFind] at hh)
    (some "Bearer AAA") (some "Bearer BBB") "AAA" "BBB"
    (by decide) (by decide) (by decide) rfl none none none 0 0 0
  exact ⟨h.1, h.2.2.2.1⟩

/-- C6: with no `Authorization` header and an unusable process-wide
credential — the persisted token file missing or unreadable, or the stored
expiry at or before the current time — `getClient` constructs no client and
fails with the Unauthenticated error whose message contains the literal
remediation phrase `authenticate` (the failure is a returned value of the
error channel, never a crash). -/
theorem getClient_unauthenticated_error (s : GraphState)
    (hinit : s.isInitialized = false) (hcl : s.client = none)
    (fileRead : Option StoredAuthInfo) (now : Nat)
    (hbad : fileRead = none ∨
      ∃ info e, fileRead = some info ∧ info.expiresAt = some e ∧ e ≤ now) :
    (getClient none fileRead now s).1 = .error notAuthenticatedMsg ∧
    (getClient none fileRead now s).2.client = none ∧
    (getClient none fileRead now s).2.nextId = s.nextId ∧
    ∃ p q, notAuthenticatedMsg = p ++ "authenticate" ++ q := by
  obtain ⟨h1, h2⟩ := initializeClient_unusable s hinit hcl fileRead now hbad
  refine ⟨?_, ?_, ?_,
    ⟨"Not authenticated. Please run the authentication CLI tool first: npx @floriscornel/teams-mcp@latest ",
     "", by decide⟩⟩
  · simp [getClient, extractToken, h1]
  · simp [getClient, extractToken, h1]
  · simp [getClient, extractToken, h1, h2]

/-- C6 witness: a missing auth file at the initial state. -/
theorem getClient_unauthenticated_error_witness :
    (getClient none none 0 {}).1 = .error notAuthenticatedMsg ∧
    (getClient none none 0 {}).2.client = none ∧
    (getClient none none 0 {}).2.nextId = ({} : GraphState).nextId ∧
    ∃ p q, notAuthenticatedMsg = p ++ "authenticate" ++ q :=
  getClient_unauthenticated_error {} rfl rfl none 0 (Or.inl rfl)

/-- C9 counterexample: the header value `Basic  xyz` (two spaces) contains a
space and its second whitespace-delimited segment is `xyz`, but the code —
which splits on single space characters — extracts the empty field between
the two spaces, treats it as falsy, and falls back to the process-wide
credential: no pool entry for `xyz` is created and, with no usable stored
credential, the call fails instead of using identity `xyz`. -/
theorem authScheme_whitespace_counterexample :
    (' ' ∈ "Basic  xyz".data) ∧
    (wsSegments "Basic  xyz")[1]? = some "xyz" ∧
    extractToken (some "Basic  xyz") = none ∧
    (getClient (some "Basic  xyz") none 0 {}).1 =
      .error notAuthenticatedMsg ∧
    assocFind (getClient (some "Basic  xyz") none 0 {}).2.pool "xyz" =
      none := by decide

/-- C9 (amended): credential extraction does not check the Authorization
scheme; it splits the header value on single space characters and uses the
second field only when it is nonempty.  Whenever that field `t` is nonempty
— whatever the scheme, e.g. `Basic xyz` yields `xyz` — `t` is the identity
keyed in the client pool and the returned client is the one pooled under
`t`; when the second field is missing or empty (e.g. just `Bearer`, or a
double space after the scheme) the request falls back to the process-wide
cached credential, behaving exactly like a request with no header. -/
theorem extractToken_second_space_field (a t : String)
    (ht : (splitChar ' ' a)[1]? = some t) (htne : t ≠ "")
    (s : GraphState) (fr fr2 : Option StoredAuthInfo) (n n2 : Nat) :
    (∀ c, (getClient (some a) fr n s).1 = .ok c →
      assocFind (getClient (some a) fr n s).2.pool t = some c) ∧
    (∀ a2, ((splitChar ' ' a2)[1]? = none ∨ (splitChar ' ' a2)[1]? = some "") →
      getClient (some a2) fr2 n2 s = getClient none fr2 n2 s) := by
  have hext : extractToken (some a) = some t := by
    simp [extractToken, ht, htne]
  constructor
  · intro c hc
    rcases hfound : assocFind s.pool t with _ | c0
    · have hr : getClient (some a) fr n s =
          (.ok s.nextId,
           { s with nextId := s.nextId + 1,
                    pool := assocSet s.pool t s.nextId }) := by
        simp [getClient, hext, hfound, newClient]
      rw [hr] at hc ⊢
      have hc2 : s.nextId = c := Except.ok.inj hc
      rw [← hc2]
      exact assocFind_set_self _ _ _
    · have hr : getClient (some a) fr n s = (.ok c0, s) := by
        simp [getClient, hext, hfound]
      rw [hr] at hc ⊢
      have hc2 : c0 = c := Except.ok.inj hc
      rw [← hc2]
      exact hfound
  · intro a2 h2
    have hext2 : extractToken (some a2) = none := by
      rcases h2 with h2 | h2 <;> simp [extractToken, h2]
    rw [getClient, hext2]
    rfl

/-- C9 witness: `Basic xyz` is treated as bearer token `xyz`. -/
theorem extractToken_second_space_field_witness :
    (∀ c, (getClient (some "Basic xyz") none 0 {}).1 = .ok c →
      assocFind (getClient (some "Basic xyz") none 0 {}).2.pool "xyz" =
        some c) ∧
    (∀ a2, ((splitChar ' ' a2)[1]? = none ∨ (splitChar ' ' a2)[1]? = some "") →
      getClient (some a2) none 0 {} = getClient none none 0 {}) :=
  extractToken_second_space_field "Basic xyz" "xyz" (by decide) (by decide)
    {} none none 0 0

/-- C10: `getAuthStatus` is total — for every input it returns a status
value on the `ok` channel (the only modelled throw point, the non-null pool
assertion, is always guarded) — and every failure (a rejected `/me` call,
or a missing/unreadable auth file or expired stored token with no bearer
token in the request) yields `isAuthenticated: false` rather than a
propagated exception. -/
theorem getAuthStatus_never_throws (authorization : Option String)
    (fileRead : Option StoredAuthInfo) (now : Nat)
    (meResult : Nat → Except Unit Me) (s : GraphState) :
    ∃ a s1, getAuthStatus authorization fileRead now meResult s = (.ok a, s1) ∧
      ((∀ c, meResult c = .error ()) → a.isAuthenticated = false) ∧
      (extractToken authorization = none → s.isInitialized = false →
        s.client = none →
        (fileRead = none ∨
          ∃ info e, fileRead = some info ∧ info.expiresAt = some e ∧ e ≤ now) →
        a.isAuthenticated = false) := by
  rcases htok : extractToken authorization with _ | token
  · rcases hcl2 : (initializeClient fileRead now s).client with _ | c
    · refine ⟨{ isAuthenticated := false }, initializeClient fileRead now s,
        ?_, fun _ => rfl, fun _ _ _ _ => rfl⟩
      simp [getAuthStatus, htok, hcl2]
    · refine ⟨meToStatus meResult c (initializeClient fileRead now s).authInfo,
        initializeClient fileRead now s, ?_, ?_, ?_⟩
      · simp [getAuthStatus, htok, hcl2]
      · intro hme
        simp [meToStatus, hme c]
      · intro _ hinit hclnone hbad
        have := (initializeClient_unusable s hinit hclnone fileRead now hbad).1
        rw [this] at hcl2
        cases hcl2
  · by_cases hmem : (assocFind s.pool token).isSome
    · obtain ⟨c, hc⟩ := Option.isSome_iff_exists.mp hmem
      refine ⟨meToStatus meResult c s.authInfo,
        { s with pool := assocSet s.pool token c }, ?_, ?_, ?_⟩
      · simp [getAuthStatus, htok, hc, poolGetBang]
      · intro hme
        simp [meToStatus, hme c]
      · intro habs
        exact absurd habs (by simp)
    · refine ⟨meToStatus meResult s.nextId s.authInfo,
        { s with nextId := s.nextId + 1,
                 pool := assocSet s.pool token s.nextId }, ?_, ?_, ?_⟩
      · simp only [Option.isSome_iff_exists, not_exists] at hmem
        rcases hfound : assocFind s.pool token with _ | c
        · simp [getAuthStatus, htok, hfound, newClient]
        · exact absurd hfound (by simpa using hmem c)
      · intro hme
        simp [meToStatus, hme s.nextId]
      · intro habs
        exact absurd habs (by simp)

/-- C10 witness: no header, no auth file, and a rejecting `/me` call. -/
theorem getAuthStatus_never_throws_witness :
    ∃ a s1,
      getAuthStatus none none 0
          (fun _ : Nat => (Except.error () : Except Unit Me)) {} =
        (.ok a, s1) ∧
      ((∀ c : Nat,
          (fun _ : Nat => (Except.error () : Except Unit Me)) c =
            Except.error ()) →
        a.isAuthenticated = false) ∧
      (extractToken none = none → ({} : GraphState).isInitialized = false →
        ({} : GraphState).client = none →
        ((none : Option StoredAuthInfo) = none ∨
          ∃ info e, (none : Option StoredAuthInfo) = some info ∧
            info.expiresAt = some e ∧ e ≤ 0) →
        a.isAuthenticated = false) :=
  getAuthStatus_never_throws none none 0
    (fun _ : Nat => (Except.error () : Except Unit Me)) {}

end Graph

namespace Tcache

/-- Inserting into the cache never leaves more than `maxSize` entries: the
capacity bound is maintained by every `set`. -/
theorem Lru.set_length_le {V : Type} (c : Lru V) (k : String) (v : V)
    (tnow : Nat) : ((c.set k v tnow).1).entries.length ≤ c.maxSize := by
  simp only [Lru.set]
  split
  · next h =>
    show (List.take c.maxSize
      ((k, ⟨v, tnow⟩) :: assocErase c.entries k)).length ≤ c.maxSize
    rw [List.length_take]
    omega
  · next h =>
    show ((k, (⟨v, tnow⟩ : LruEntry V)) ::
      assocErase c.entries k).length ≤ c.maxSize
    omega

/-- A freshly set key is present in the cache afterwards (the new entry
occupies the most-recently-used slot, which survives the capacity trim as
long as the capacity is positive). -/
theorem Lru.set_find_self {V : Type} (c : Lru V) (k : String) (v : V)
    (tnow : Nat) (hmax : 0 < c.maxSize) :
    assocFind ((c.set k v tnow).1).entries k = some ⟨v, tnow⟩ := by
  rcases hm : c.maxSize with _ | n
  · omega
  · simp only [Lru.set, hm]
    split
    · next h =>
      rw [List.take_succ_cons]
      exact assocFind_cons_self _ _ _
    · next h =>
      exact assocFind_cons_self _ _ _

/-- `getTransport` written out: a fresh transport id, a fresh server with
the five tool sets registered, a fresh uuid, and the cache updated by
`set`. -/
theorem getTransport_unfold (uuid : Nat → String) (now : Nat) (s : TCState) :
    TransportCache.getTransport uuid now s =
      ({ transport := s.nextTransport, id := uuid s.uuidIdx,
         createdAt := now },
       { serverId := s.nextServer, name := "Microsoft Teams MCP Server",
         version := "0.3.3", tools := allToolSets },
       { cache := (s.cache.set (uuid s.uuidIdx) s.nextTransport now).1,
         nextTransport := s.nextTransport + 1,
         nextServer := s.nextServer + 1,
         uuidIdx := s.uuidIdx + 1,
         disposedClosed := s.disposedClosed ++
           ((s.cache.set (uuid s.uuidIdx) s.nextTransport now).2).map
             Prod.snd }) := rfl

/-- A non-health request is dispatched through `getTransport`, with the
caller-supplied session id used only as a logging label. -/
theorem handleHttpRequest_mcp (uuid : Nat → String) (now : Nat)
    (nowIso : String) (m u sid : String) (s : TCState)
    (hnh : ¬(m = "GET" ∧ u = "/health")) :
    handleHttpRequest uuid now nowIso ⟨m, u, some sid⟩ s =
      (.mcp sid (TransportCache.getTransport uuid now s).1,
       (TransportCache.getTransport uuid now s).2.2, 1) := by
  rw [handleHttpRequest, if_neg hnh]

/-- C1: `TransportCache.getTransport` unconditionally builds a brand-new
transport wired to a brand-new server instance with all five tool sets
freshly registered, stores the pair under the newly generated random
identifier, and consults no caller-supplied `mcp-session-id` (two requests
differing only in that header produce identical transports and states);
consequently two successive requests presenting the same session id receive
two distinct transport objects. -/
theorem getTransport_fresh_per_request (uuid : Nat → String) (now : Nat)
    (s : TCState) (nowIso : String) (m u sid1 sid2 : String)
    (hmax : 0 < s.cache.maxSize) (hnh : ¬(m = "GET" ∧ u = "/health")) :
    (TransportCache.getTransport uuid now s).1.transport = s.nextTransport ∧
    (TransportCache.getTransport uuid now s).1.id = uuid s.uuidIdx ∧
    (TransportCache.getTransport uuid now s).2.1.serverId = s.nextServer ∧
    (TransportCache.getTransport uuid now s).2.1.tools = allToolSets ∧
    assocFind (TransportCache.getTransport uuid now s).2.2.cache.entries
        (uuid s.uuidIdx) = some ⟨s.nextTransport, now⟩ ∧
    (TransportCache.getTransport uuid now s).2.2.nextTransport =
      s.nextTransport + 1 ∧
    (handleHttpRequest uuid now nowIso ⟨m, u, some sid1⟩ s).1.cachedUsed =
      (handleHttpRequest uuid now nowIso ⟨m, u, some sid2⟩ s).1.cachedUsed ∧
    (handleHttpRequest uuid now nowIso ⟨m, u, some sid1⟩ s).2.1 =
      (handleHttpRequest uuid now nowIso ⟨m, u, some sid2⟩ s).2.1 ∧
    (∀ c1 c2,
      (handleHttpRequest uuid now nowIso ⟨m, u, some sid1⟩ s).1.cachedUsed =
        some c1 →
      (handleHttpRequest uuid now nowIso ⟨m, u, some sid1⟩
          (handleHttpRequest uuid now nowIso
            ⟨m, u, some sid1⟩ s).2.1).1.cachedUsed = some c2 →
      c1.transport ≠ c2.transport) := by
  refine ⟨rfl, rfl, rfl, rfl, ?_, rfl, ?_, ?_, ?_⟩
  · rw [getTransport_unfold]
    exact Lru.set_find_self s.cache _ _ now hmax
  · rw [handleHttpRequest_mcp uuid now nowIso m u sid1 s hnh,
        handleHttpRequest_mcp uuid now nowIso m u sid2 s hnh]
    rfl
  · rw [handleHttpRequest_mcp uuid now nowIso m u sid1 s hnh,
        handleHttpRequest_mcp uuid now nowIso m u sid2 s hnh]
  · intro c1 c2 h1 h2
    rw [handleHttpRequest_mcp uuid now nowIso m u sid1 s hnh] at h1
    simp only [HttpOutcome.cachedUsed, Option.some.injEq] at h1
    rw [handleHttpRequest_mcp uuid now nowIso m u sid1 s hnh] at h2
    rw [handleHttpRequest_mcp uuid now nowIso m u sid1 _ hnh] at h2
    simp only [HttpOutcome.cachedUsed, Option.some.injEq] at h2
    rw [← h1, ← h2]
    rw [getTransport_unfold, getTransport_unfold]
    simp

/-- C1 witness: two requests with the same session id from the initial
state receive distinct transports. -/
theorem getTransport_fresh_per_request_witness :
    (TransportCache.getTransport (fun _ => "u0") 5
        TransportCache.init).1.transport =
      TransportCache.init.nextTransport ∧
    (∀ c1 c2,
      (handleHttpRequest (fun _ => "u0") 5 "iso"
          ⟨"POST", "/mcp", some "sess"⟩ TransportCache.init).1.cachedUsed =
        some c1 →
      (handleHttpRequest (fun _ => "u0") 5 "iso" ⟨"POST", "/mcp", some "sess"⟩
          (handleHttpRequest (fun _ => "u0") 5 "iso"
            ⟨"POST", "/mcp", some "sess"⟩
            TransportCache.init).2.1).1.cachedUsed = some c2 →
      c1.transport ≠ c2.transport) := by
  have h := getTransport_fresh_per_request (fun _ => "u0") 5
    TransportCache.init "iso" "POST" "/mcp" "sess" "sess"
    (by decide) (by decide)
  exact ⟨h.1, h.2.2.2.2.2.2.2.2⟩

/-- C3: with the cache at capacity (its recency list being `front` plus a
least-recently-used last entry), an insertion evicts exactly that last
entry: the capacity bound still holds (and is maintained by every
insertion, with the default configuration bounding it at 100), the evicted
key is gone from the cache, its transport is closed exactly once, a close
failure is logged by the dispose handler — which returns log lines and has
no error channel to re-throw — and teardown disposes every entry regardless
of close failures. -/
theorem transportCache_capacity_lru_eviction (uuid : Nat → String)
    (now : Nat) (s : TCState) (front : List (String × LruEntry Nat))
    (kL : String) (eL : LruEntry Nat)
    (hsplit : s.cache.entries = front ++ [(kL, eL)])
    (hcap : s.cache.maxSize = front.length + 1)
    (hfresh : uuid s.uuidIdx ∉ assocKeys s.cache.entries)
    (hkL : kL ∉ assocKeys front)
    (hnot : eL.value ∉ s.disposedClosed) :
    TransportCache.init.cache.maxSize = 100 ∧
    (∀ s2 : TCState,
      (TransportCache.getTransport uuid now s2).2.2.cache.entries.length ≤
        s2.cache.maxSize) ∧
    (TransportCache.getTransport uuid now s).2.2.cache.entries =
      (uuid s.uuidIdx, ⟨s.nextTransport, now⟩) :: front ∧
    (TransportCache.getTransport uuid now s).2.2.disposedClosed =
      s.disposedClosed ++ [eL.value] ∧
    (TransportCache.getTransport uuid now s).2.2.disposedClosed.count
      eL.value = 1 ∧
    assocFind (TransportCache.getTransport uuid now s).2.2.cache.entries
      kL = none ∧
    (∀ (close : Nat → Except String Unit) (id : String) (tr : Nat)
      (err : String), close tr = .error err →
      disposeHandler close id tr = [logDisposing id, logCloseError id]) ∧
    (∀ (close : Nat → Except String Unit) (s3 : TCState),
      (TransportCache.destroy close s3).1.cache.entries = [] ∧
      (TransportCache.destroy close s3).1.disposedClosed =
        s3.disposedClosed ++ s3.cache.entries.map (fun e => e.2.value)) := by
  have herase : assocErase s.cache.entries (uuid s.uuidIdx) =
      s.cache.entries :=
    assocErase_of_not_mem_keys _ _ hfresh
  have herase2 : assocErase (front ++ [(kL, eL)]) (uuid s.uuidIdx) =
      front ++ [(kL, eL)] := by
    rw [← hsplit]
    exact herase
  have hset : s.cache.set (uuid s.uuidIdx) s.nextTransport now =
      ({ s.cache with
          entries := (uuid s.uuidIdx, ⟨s.nextTransport, now⟩) :: front },
       [(kL, eL.value)]) := by
    simp only [Lru.set, hsplit, herase2, hcap]
    rw [if_pos (by simp)]
    rw [List.take_succ_cons, List.drop_succ_cons,
      List.take_left, List.drop_left]
    simp
  have hkne : uuid s.uuidIdx ≠ kL := by
    intro hh
    apply hfresh
    rw [hsplit, hh]
    simp [assocKeys]
  refine ⟨rfl, ?_, ?_, ?_, ?_, ?_, ?_, ?_⟩
  · intro s2
    rw [getTransport_unfold]
    exact Lru.set_length_le s2.cache _ _ now
  · rw [getTransport_unfold, hset]
  · rw [getTransport_unfold, hset]
    rfl
  · rw [getTransport_unfold, hset]
    show (s.disposedClosed ++ [eL.value]).count eL.value = 1
    rw [List.count_append]
    rw [List.count_eq_zero.mpr hnot]
    simp
  · rw [getTransport_unfold, hset]
    show assocFind
      ((uuid s.uuidIdx, (⟨s.nextTransport, now⟩ : LruEntry Nat)) :: front)
      kL = none
    rw [assocFind_cons_ne _ _ _ _ hkne]
    exact assocFind_of_not_mem_keys _ _ hkL
  · intro close id tr err h
    simp [disposeHandler, h]
  · intro close s3
    constructor
    · rfl
    · show s3.disposedClosed ++
          (s3.cache.entries.map (fun e => (e.1, e.2.value))).map Prod.snd =
        s3.disposedClosed ++ s3.cache.entries.map (fun e => e.2.value)
      rw [List.map_map]
      rfl

/-- C3 witness: a capacity-3 cache holding `a`, `b`, `c` (in recency order)
evicts exactly `c`, the least-recently-used entry, on the next insertion,
and its transport 12 is closed once. -/
theorem transportCache_capacity_lru_eviction_witness :
    (TransportCache.getTransport (fun _ => "u0") 50
        sampleFullState).2.2.cache.entries =
      [("u0", ⟨20, 50⟩), ("a", ⟨10, 0⟩), ("b", ⟨11, 0⟩)] ∧
    (TransportCache.getTransport (fun _ => "u0") 50
        sampleFullState).2.2.disposedClosed = [12] := by
  have h := transportCache_capacity_lru_eviction (fun _ => "u0") 50
    sampleFullState
    [("a", ⟨10, 0⟩), ("b", ⟨11, 0⟩)] "c" ⟨12, 0⟩
    rfl rfl (by decide) (by decide) (by decide)
  exact ⟨h.2.2.1, h.2.2.2.1⟩

/-- C4: entries of the transport cache expire `ttl` milliseconds after
creation (30000 in the shipped configuration): an expired entry is treated
as absent and evicted through the same disposal path as capacity eviction
on the access that observes it, exactly once; a non-expired access returns
the value but leaves the insertion instant unchanged (`updateAgeOnGet:
false`), so the entry still expires at the same absolute time no matter how
often it was accessed before. -/
theorem transportCache_ttl_expiry (c : Lru Nat) (k : String)
    (e : LruEntry Nat) (tLater tHit : Nat)
    (hfind : assocFind c.entries k = some e)
    (hexp : e.start + c.ttl ≤ tLater)
    (hhit : tHit < e.start + c.ttl) :
    TransportCache.init.cache.ttl = 30000 ∧
    (c.get k tLater).1 = none ∧
    assocFind ((c.get k tLater).2.1).entries k = none ∧
    (c.get k tLater).2.2 = [(k, e.value)] ∧
    (c.get k tHit).1 = some e.value ∧
    assocFind ((c.get k tHit).2.1).entries k = some e ∧
    (((c.get k tHit).2.1).get k tLater).1 = none ∧
    (((c.get k tHit).2.1).get k tLater).2.2 = [(k, e.value)] := by
  have hgetL : c.get k tLater =
      (none, { c with entries := assocErase c.entries k },
       [(k, e.value)]) := by
    simp only [Lru.get, hfind]
    rw [if_pos hexp]
  have hgetH : c.get k tHit =
      (some e.value,
       { c with entries := (k, e) :: assocErase c.entries k }, []) := by
    simp only [Lru.get, hfind]
    rw [if_neg (by omega)]
  have hfind2 :
      assocFind ((k, e) :: assocErase c.entries k) k = some e :=
    assocFind_cons_self _ _ _
  have hgetL2 :
      ({ c with entries := (k, e) :: assocErase c.entries k } : Lru Nat).get
          k tLater =
        (none,
         { c with entries :=
            assocErase ((k, e) :: assocErase c.entries k) k },
         [(k, e.value)]) := by
    simp only [Lru.get, hfind2]
    rw [if_pos hexp]
  refine ⟨rfl, ?_, ?_, ?_, ?_, ?_, ?_, ?_⟩
  · rw [hgetL]
  · rw [hgetL]
    exact assocFind_erase_self _ _
  · rw [hgetL]
  · rw [hgetH]
  · rw [hgetH]
    exact hfind2
  · rw [hgetH, hgetL2]
  · rw [hgetH, hgetL2]

/-- C4 witness: an entry created at 100 with the default 30000 ms TTL is
served (age unchanged) at 200 and evicted at 30100. -/
theorem transportCache_ttl_expiry_witness :
    (sampleTtlCache.get "k" 30100).1 = none ∧
    (sampleTtlCache.get "k" 30100).2.2 = [("k", 7)] ∧
    (sampleTtlCache.get "k" 200).1 = some 7 := by
  have h := transportCache_ttl_expiry sampleTtlCache
    "k" ⟨7, 100⟩ 30100 200 rfl (by decide) (by decide)
  exact ⟨h.2.1, h.2.2.2.1, h.2.2.2.2.1⟩

/-- C7: `GET /health` returns status 200 with a body holding exactly the
fields `status`, `server`, `version`, `timestamp`, leaves the transport
cache state untouched, and causes zero `getTransport` invocations. -/
theorem health_bypasses_transport_cache (uuid : Nat → String) (now : Nat)
    (nowIso : String) (sid : Option String) (s : TCState) :
    handleHttpRequest uuid now nowIso ⟨"GET", "/health", sid⟩ s =
      (.health 200 (healthBody nowIso), s, 0) ∧
    (healthBody nowIso).map Prod.fst =
      ["status", "server", "version", "timestamp"] :=
  ⟨by rw [handleHttpRequest, if_pos ⟨rfl, rfl⟩], rfl⟩

end Tcache

namespace Dispatch

/-- Running a concatenation of event lists runs them in sequence. -/
theorem run_append (l1 l2 : List Event) (s : ResState) :
    run s (l1 ++ l2) = run (run s l1) l2 := by
  induction l1 generalizing s with
  | nil => rfl
  | cons e t ih =>
    show run (step s e) (t ++ l2) = _
    exact ih (step s e)

/-- No event writes a response without also marking headers sent: as long
as headers are unsent, nothing has been written. -/
theorem step_no_write (s : ResState) (e : Event)
    (h : s.headersSent = false → s.written = []) :
    (step s e).headersSent = false → (step s e).written = [] := by
  cases e <;> simp only [step] <;> (try split_ifs) <;> simp_all

/-- Specialization of `step_no_write` along a whole event list. -/
theorem run_no_write (l : List Event) (s : ResState)
    (h : s.headersSent = false → s.written = []) :
    (run s l).headersSent = false → (run s l).written = [] := by
  induction l generalizing s with
  | nil => exact h
  | cons e t ih => exact ih (step s e) (step_no_write s e h)

/-- Once headers are sent and the timer is cleared, no further event
changes the request state at all. -/
theorem run_terminal (l : List Event) (w : List RpcResponse) :
    run { headersSent := true, timerActive := false, written := w } l =
      { headersSent := true, timerActive := false, written := w } := by
  induction l with
  | nil => rfl
  | cons e t ih =>
    have hstep :
        step { headersSent := true, timerActive := false, written := w } e =
          { headersSent := true, timerActive := false, written := w } := by
      cases e <;> simp [step]
    show run
      (step { headersSent := true, timerActive := false, written := w } e)
      t = _
    rw [hstep]
    exact ih

/-- C5: if the 25000 ms one-shot timer fires while no response has been
produced, the dispatcher writes exactly one timeout response — HTTP 408
carrying the protocol-level JSON-RPC error code -32000, not only an
HTTP-level code — and no second response is ever written for that request
afterwards: the write is guarded by headers-not-yet-sent and every
response-ending event clears the one-shot timer. -/
theorem timeout_single_response (pre post : List Event)
    (hhdr : (run initRes pre).headersSent = false)
    (htimer : (run initRes pre).timerActive = true) :
    run initRes (pre ++ .timerFire :: post) =
      { headersSent := true, timerActive := false,
        written := [timeoutResponse] } ∧
    timeoutResponse = { httpStatus := 408, rpcCode := some (-32000) } ∧
    requestTimeoutMs = 25000 ∧
    (∀ s : ResState, (step s .handlerSuccess).timerActive = false ∧
      (step s .handlerError).timerActive = false ∧
      (step s .reqClose).timerActive = false) := by
  have hw : (run initRes pre).written = [] :=
    run_no_write pre initRes (fun _ => rfl) hhdr
  have hfire : step (run initRes pre) .timerFire =
      { headersSent := true, timerActive := false,
        written := [timeoutResponse] } := by
    simp [step, htimer, hhdr, hw]
  refine ⟨?_, rfl, rfl, ?_⟩
  · rw [run_append]
    show run (step (run initRes pre) .timerFire) post = _
    rw [hfire]
    exact run_terminal post [timeoutResponse]
  · intro s
    refine ⟨?_, ?_, ?_⟩ <;> by_cases hh : s.headersSent <;>
      simp [step, hh]

/-- C5 witness: the timer fires first and a later dispatch error writes
nothing more. -/
theorem timeout_single_response_witness :
    run initRes [Event.timerFire, Event.handlerError] =
      { headersSent := true, timerActive := false,
        written := [timeoutResponse] } :=
  (timeout_single_response [] [Event.handlerError] rfl rfl).1

end Dispatch

namespace IndexTs

/-- When `validateToken` accepts, it returns the token itself. -/
theorem validateToken_some_eq (decode : String → Option JwtPayload)
    (t u : String) (h : validateToken decode t = some u) : u = t := by
  simp only [validateToken] at h
  split at h
  · cases h
  · split at h
    · cases h
    · split at h
      · exact (Option.some.inj h).symm
      · cases h

/-- `validateToken` accepts exactly the tokens with three dot-delimited
segments whose decoded middle segment carries the Graph audience. -/
theorem validateToken_some_iff (decode : String → Option JwtPayload)
    (t : String) :
    validateToken decode t = some t ↔
      ((splitChar '.' t).length = 3 ∧
        ∃ p, decode ((splitChar '.' t)[1]?.getD "") = some p ∧
          audIncludes p.aud = true) := by
  simp only [validateToken]
  split
  · next hcond =>
    simp only [ne_eq, not_not] at hcond
    simp [hcond]
  · next hcond =>
    have hlen : (splitChar '.' t).length = 3 := not_not.mp hcond
    split
    · next heq =>
      rw [heq]
      simp [hlen]
    · next p heq =>
      rw [heq]
      by_cases haud : audIncludes p.aud = true
      · simp [haud, hlen]
      · simp [haud, hlen]

/-- A truthy environment token that passes validation decides the result by
itself. -/
theorem getAuthInfo_env_accepted (decode : String → Option JwtPayload)
    (t : String) (ht : t ≠ "") (fileRead : Option AuthFileInfo)
    (nowIso : String) (h : validateToken decode t = some t) :
    getAuthInfo decode (some t) fileRead nowIso =
      { authenticated := true, timestamp := nowIso, token := t } := by
  simp [getAuthInfo, ht, h]

/-- A truthy environment token that fails validation yields the
unauthenticated record. -/
theorem getAuthInfo_env_rejected (decode : String → Option JwtPayload)
    (t : String) (ht : t ≠ "") (fileRead : Option AuthFileInfo)
    (nowIso : String) (h : validateToken decode t = none) :
    getAuthInfo decode (some t) fileRead nowIso =
      { authenticated := false, timestamp := nowIso, token := "" } := by
  simp [getAuthInfo, ht, h]

/-- C8 counterexample: with `AUTH_TOKEN` set to the empty string — a string
that fails the structural validation — `getAuthInfo` does not return
`authenticated: false`; the empty value is treated as an absent variable
and the call falls through to the persisted auth file, which can report
`authenticated: true`. -/
theorem authToken_empty_counterexample :
    validateToken (fun _ => none) "" = none ∧
    (getAuthInfo (fun _ => none) (some "")
        (some { authenticated := true, timestamp := "t", token := "tok" })
        "now").authenticated = true := by decide

/-- C8 (amended): for every nonempty string `t` injected via `AUTH_TOKEN`,
`getAuthInfo` returns an authenticated credential carrying `t` if and only
if `t` has exactly three dot-delimited segments and the decoded middle
segment carries the Graph audience (`aud` a string or an array including
the Graph URL); the validation is purely structural in the decode function
— no network call and no signature check — and any nonempty `t` failing it
yields `authenticated: false`.  The empty string is treated as an unset
variable and falls through to the persisted file. -/
theorem getAuthInfo_env_structural (decode : String → Option JwtPayload)
    (t : String) (ht : t ≠ "") (fileRead : Option AuthFileInfo)
    (nowIso : String) :
    (((getAuthInfo decode (some t) fileRead nowIso).authenticated = true ∧
        (getAuthInfo decode (some t) fileRead nowIso).token = t) ↔
      ((splitChar '.' t).length = 3 ∧
        ∃ p, decode ((splitChar '.' t)[1]?.getD "") = some p ∧
          audIncludes p.aud = true)) ∧
    (validateToken decode t = none →
      getAuthInfo decode (some t) fileRead nowIso =
        { authenticated := false, timestamp := nowIso, token := "" }) := by
  constructor
  · constructor
    · intro ⟨h1, h2⟩
      rcases hval : validateToken decode t with _ | u
      · rw [getAuthInfo_env_rejected decode t ht fileRead nowIso hval] at h2
        exact absurd h2.symm ht
      · have hu : u = t := validateToken_some_eq decode t u hval
        rw [hu] at hval
        exact (validateToken_some_iff decode t).mp hval
    · intro hstruct
      have hval : validateToken decode t = some t :=
        (validateToken_some_iff decode t).mpr hstruct
      rw [getAuthInfo_env_accepted decode t ht fileRead nowIso hval]
      exact ⟨rfl, rfl⟩
  · intro hval
    exact getAuthInfo_env_rejected decode t ht fileRead nowIso hval

/-- C8 witness: a three-segment token whose middle segment decodes to the
Graph audience is accepted. -/
theorem getAuthInfo_env_structural_witness :
    (getAuthInfo
        (fun seg => if seg = "B"
          then some { aud := some (Sum.inl "https://graph.microsoft.com") }
          else none)
        (some "A.B.C") none "now").authenticated = true := by
  have h := getAuthInfo_env_structural
    (fun seg => if seg = "B"
      then some { aud := some (Sum.inl "https://graph.microsoft.com") }
      else none)
    "A.B.C" (by decide) none "now"
  exact (h.1.mpr ⟨by decide,
    ⟨{ aud := some (Sum.inl "https://graph.microsoft.com") },
     by decide, by decide⟩⟩).1

end IndexTs

end TeamsMcp
